import Mathlib

/-!
Verification development for the GOES-19 convective-analysis toolkit
(`download_goes.py`, `preprocess_goes.py`, `plot_goes.py`).

The three Python modules are shallowly embedded as pure Lean functions over
explicit state:

* the filesystem is a record of existing directories, existing files (with
  byte contents), and paths whose creation is denied (permission errors);
* the network is a function from URL to an outcome (connection failure, or
  an HTTP response with status and body);
* the external array engine (xarray) and the plotting engine (matplotlib)
  are out-of-scope collaborators of the repository; where their behaviour
  matters it is modelled from the specification of their use.

Paths are lists of segments, bytes are natural numbers, and coordinates are
integers (no coordinate arithmetic occurs in the code, only comparisons, so
any linear order is a faithful stand-in for the floating-point labels).
-/

/-- A filesystem path, as a list of segments. -/
abbrev FPath := List String

/-- The filesystem state seen by `download_goes.py`: existing directories,
existing files with their contents, and paths where directory creation is
denied (permission errors). -/
structure FS where
  dirs : List FPath
  files : List (FPath × List Nat)
  denied : List FPath
deriving DecidableEq

/-- Outcome of an HTTP GET for a given URL: connection failure, or a
response carrying a status code and a body. -/
inductive NetOutcome where
  | fail : NetOutcome
  | resp (status : Nat) (body : List Nat) : NetOutcome
deriving DecidableEq

/-- The network, as a map from URL to the outcome `requests.get` would see. -/
abbrev Net := String → NetOutcome

/-- Errors a download can raise: filesystem errors (from `mkdir`), an HTTP
error status (from `raise_for_status`), or a connection failure. -/
inductive DLErr where
  | fsError (msg : String) : DLErr
  | httpError (status : Nat) : DLErr
  | netError : DLErr
deriving DecidableEq

/-- `Path.exists()`: true when the path is an existing directory or file. -/
def pathExists (fs : FS) (p : FPath) : Bool :=
  decide (p ∈ fs.dirs) || decide (p ∈ fs.files.map Prod.fst)

/-- `ensure_dir` (`download_goes.py`): `Path(path).mkdir(parents=True,
exist_ok=True)`. Succeeds silently when the directory already exists;
raises `FileExistsError` when a regular file occupies the path; raises
`PermissionError` when creation is denied; otherwise records the new
directory. (Creation of missing ancestors is not tracked, since no caller
observes them.) -/
def ensure_dir (fs : FS) (p : FPath) : Except String FS :=
  if p ∈ fs.dirs then .ok fs
  else if p ∈ fs.files.map Prod.fst then .error "FileExistsError"
  else if p ∈ fs.denied then .error "PermissionError"
  else .ok { fs with dirs := p :: fs.dirs }

/-- Python `str.split("/")` on the character list of a string. -/
def splitSlash : List Char → List (List Char)
  | [] => [[]]
  | c :: rest =>
    match splitSlash rest with
    | [] => [[]]
    | seg :: segs => if c = '/' then [] :: seg :: segs else (c :: seg) :: segs

/-- `url.split("/")[-1]`: the last path segment of a URL. -/
def lastSegment (url : String) : String :=
  String.mk ((splitSlash url.data).getLastD [])

/-- `out_dir / filename` in `pathlib`: joining with the empty string leaves
the directory path unchanged (empty segments are dropped by `PurePath`). -/
def pathJoin (dir : FPath) (seg : String) : FPath :=
  if seg = "" then dir else dir ++ [seg]

/-- `open(out_path, "wb")` followed by writing the whole body: creates or
truncates the file at `p` and stores `contents` there. -/
def writeFile (fs : FS) (p : FPath) (contents : List Nat) : FS :=
  { fs with files := (p, contents) :: fs.files.filter (fun f => !decide (f.1 = p)) }

/-- Decidable equality for `Except`, so traces of fallible calls can be
compared on concrete inputs. -/
instance {ε α : Type _} [DecidableEq ε] [DecidableEq α] : DecidableEq (Except ε α) := fun a b =>
  match a, b with
  | .error e, .error f =>
    if h : e = f then isTrue (by subst h; rfl) else isFalse (fun hh => by cases hh; exact h rfl)
  | .error _, .ok _ => isFalse (fun hh => by cases hh)
  | .ok _, .error _ => isFalse (fun hh => by cases hh)
  | .ok x, .ok y =>
    if h : x = y then isTrue (by subst h; rfl) else isFalse (fun hh => by cases hh; exact h rfl)

/-- Result of one `download_file` call: the returned path or raised error,
the filesystem afterwards, and the list of URLs actually requested over the
network. -/
structure DLRes where
  res : Except DLErr FPath
  fs : FS
  requested : List String
deriving DecidableEq

/-- `download_file` (`download_goes.py`): ensures `out_dir` exists, computes
`out_path = out_dir / url.split("/")[-1]`, returns `out_path` immediately
when it already exists (no network activity), otherwise performs the GET,
raises on connection failure or on a 4xx/5xx status
(`Response.raise_for_status`), and writes the body to `out_path`. -/
def download_file (net : Net) (fs : FS) (url : String) (out_dir : FPath) : DLRes :=
  match ensure_dir fs out_dir with
  | .error e => ⟨.error (.fsError e), fs, []⟩
  | .ok fs1 =>
    let filename := lastSegment url
    let out_path := pathJoin out_dir filename
    if pathExists fs1 out_path then ⟨.ok out_path, fs1, []⟩
    else
      match net url with
      | .fail => ⟨.error .netError, fs1, [url]⟩
      | .resp status body =>
        if 400 ≤ status ∧ status < 600 then ⟨.error (.httpError status), fs1, [url]⟩
        else ⟨.ok out_path, writeFile fs1 out_path body, [url]⟩

/-- Result of a `download_many` call: the returned list of local paths, the
filesystem afterwards, the URLs requested over the network, and the URLs for
which `download_file` was attempted, in order. -/
structure DMRes where
  paths : List FPath
  fs : FS
  requested : List String
  attempted : List String
deriving DecidableEq

/-- The loop body of `download_many`: each URL is attempted in order inside
`try: ... except Exception`, so an error from `download_file` (including an
`ensure_dir` filesystem error) is logged and the URL skipped, never
re-raised. -/
def download_many_loop (net : Net) (fs : FS) (urls : List String) (out_dir : FPath) : DMRes :=
  match urls with
  | [] => ⟨[], fs, [], []⟩
  | u :: rest =>
    let r := download_file net fs u out_dir
    let tail := download_many_loop net r.fs rest out_dir
    match r.res with
    | .ok p => ⟨p :: tail.paths, tail.fs, r.requested ++ tail.requested, u :: tail.attempted⟩
    | .error _ => ⟨tail.paths, tail.fs, r.requested ++ tail.requested, u :: tail.attempted⟩

/-- `download_many` (`download_goes.py`). The return type allows an
exception to propagate to the caller (as any Python function may), but the
body never raises: every per-URL exception is caught by the blanket
`except Exception` inside the loop. -/
def download_many (net : Net) (fs : FS) (urls : List String) (out_dir : FPath) :
    Except DLErr DMRes :=
  .ok (download_many_loop net fs urls out_dir)

/-- The per-URL outcomes `download_file` produces when the URLs are tried in
order against the evolving filesystem (the trace `download_many` reacts to). -/
def download_outcomes (net : Net) (fs : FS) (urls : List String) (out_dir : FPath) :
    List (Except DLErr FPath) :=
  match urls with
  | [] => []
  | u :: rest =>
    let r := download_file net fs u out_dir
    r.res :: download_outcomes net r.fs rest out_dir

/-- Python `str.rstrip("/")`: remove all trailing slash characters. -/
def rstripSlash (s : String) : String :=
  String.mk ((s.data.reverse.dropWhile (fun c => c = '/')).reverse)

/-- `build_goes_example_url` (`download_goes.py`):
`f"{base_url.rstrip('/')}/{filename}"`. -/
def build_goes_example_url (base_url : String) (filename : String) : String :=
  rstripSlash base_url ++ "/" ++ filename

/-- A field (xarray `DataArray`): named coordinate axes, each carrying its
coordinate labels in storage order, and the samples in row-major order. -/
structure DataArray where
  axes : List (String × List Int)
  data : List Int
deriving DecidableEq

/-- A scene dataset (xarray `Dataset`): a mapping from variable name to
field, per the data model of the design. -/
structure Dataset where
  vars : List (String × DataArray)
deriving DecidableEq

/-- Closed-interval membership test for a coordinate label. -/
def inClosed (lo hi c : Int) : Bool :=
  decide (lo ≤ c) && decide (c ≤ hi)

/-- Modelled from the spec: the out-of-scope array engine's window for a
label-based `slice(lo, hi)` on a monotonically ascending coordinate axis —
the contiguous run of positions from the first label not below `lo`
(left search) up to the last label not above `hi` (right search). -/
def selWindow (coords : List Int) (lo hi : Int) : Nat × Nat :=
  (coords.countP (fun c => decide (c < lo)), coords.countP (fun c => decide (c ≤ hi)))

/-- The positions the engine's window keeps along one axis. -/
def selIdxs (coords : List Int) (lo hi : Int) : List Nat :=
  (List.range coords.length).filter
    (fun i => decide ((selWindow coords lo hi).1 ≤ i) && decide (i < (selWindow coords lo hi).2))

/-- The positions whose coordinate label lies in the closed interval
`[lo, hi]` — selection by coordinate value, the specification's reading. -/
def maskIdxs (coords : List Int) (lo hi : Int) : List Nat :=
  (List.range coords.length).filter (fun i => inClosed lo hi (coords.getD i 0))

/-- Restriction of a row-major data block to the chosen positions along each
axis; each list entry carries the kept positions and the axis's full
length. -/
def gatherFlat : List (List Nat × Nat) → List Int → List Int
  | [], data => data
  | (is, _) :: rest, data =>
    is.flatMap (fun i =>
      gatherFlat rest
        ((data.drop (i * (rest.map Prod.snd).prod)).take ((rest.map Prod.snd).prod)))

/-- Positions kept along one axis by a selection list `sels` of
`(dimension, lo, hi)` triples: the engine's window for a selected axis, every
position for an untouched axis. -/
def axisIdxs (sels : List (String × Int × Int)) (ax : String × List Int) : List Nat :=
  match sels.lookup ax.1 with
  | some (lo, hi) => selIdxs ax.2 lo hi
  | none => List.range ax.2.length

/-- Modelled from the spec: the out-of-scope array engine's label-based
range selection (`DataArray.sel` with `slice` values). Raises when a
selected dimension is absent, raises when a selected axis is not
monotonically ascending (the design leaves descending axes unspecified),
and otherwise keeps exactly the windowed positions along each selected
axis. -/
def DataArray.sel (da : DataArray) (sels : List (String × Int × Int)) :
    Except String DataArray :=
  if ¬ (sels.all (fun s => da.axes.any (fun ax => ax.1 == s.1))) then
    .error "dimension not found"
  else if ¬ (da.axes.all (fun ax =>
      if (sels.lookup ax.1).isSome then decide (List.Pairwise (· ≤ ·) ax.2) else true)) then
    .error "index must be monotonic"
  else
    .ok ⟨da.axes.map (fun ax => (ax.1, (axisIdxs sels ax).filterMap (fun i => ax.2.get? i))),
         gatherFlat (da.axes.map (fun ax => (axisIdxs sels ax, ax.2.length))) da.data⟩

/-- `open_goes_scene` (`preprocess_goes.py`): delegates to the engine's
`open_dataset` on the given path; whatever the engine raises propagates. -/
def open_goes_scene (engine : String → Except String Dataset) (path : String) :
    Except String Dataset :=
  engine path

/-- `select_variable` (`preprocess_goes.py`): `if var_name not in ds: raise
KeyError(f"La variable '{var_name}' no existe en el Dataset.")`, otherwise
`return ds[var_name]`. -/
def select_variable (ds : Dataset) (var_name : String) : Except String DataArray :=
  if (ds.vars.lookup var_name).isSome then
    match ds.vars.lookup var_name with
    | some da => .ok da
    | none => .error "unreachable"
  else
    .error ("KeyError: La variable \x27" ++ var_name ++ "\x27 no existe en el Dataset.")

/-- `subset_domain` (`preprocess_goes.py`): `da.sel({lat_name:
slice(lat_min, lat_max), lon_name: slice(lon_min, lon_max)})`. The Python
dict literal keeps only the `lon_name` entry when the two names coincide. -/
def subset_domain (da : DataArray) (lat_bounds lon_bounds : Int × Int)
    (lat_name : String := "y") (lon_name : String := "x") : Except String DataArray :=
  da.sel (if lat_name = lon_name then
            [(lon_name, lon_bounds.1, lon_bounds.2)]
          else
            [(lat_name, lat_bounds.1, lat_bounds.2), (lon_name, lon_bounds.1, lon_bounds.2)])

/-- `prepare_scene` (`preprocess_goes.py`): open the scene, select the
variable, subset the domain, in that order; the `Except` bind aborts the
chain at the first raised error. -/
def prepare_scene (engine : String → Except String Dataset) (path : String)
    (var_name : String) (lat_bounds lon_bounds : Int × Int)
    (lat_name : String := "y") (lon_name : String := "x") : Except String DataArray := do
  let ds ← open_goes_scene engine path
  let da ← select_variable ds var_name
  subset_domain da lat_bounds lon_bounds lat_name lon_name

/-- The specification's wording for `prepare_scene`: the composition of the
three operations, in that order. -/
def prepare_scene_spec (engine : String → Except String Dataset) (path : String)
    (var_name : String) (lat_bounds lon_bounds : Int × Int)
    (lat_name lon_name : String) : Except String DataArray :=
  (open_goes_scene engine path).bind (fun ds =>
    (select_variable ds var_name).bind (fun da =>
      subset_domain da lat_bounds lon_bounds lat_name lon_name))

/-- Positions kept along one axis under the specification's reading of
`subset_domain`: labels within the latitude interval on the latitude axis,
labels within the longitude interval on the longitude axis, every position
elsewhere. -/
def specAxisIdxs (lat_name lon_name : String) (lat_bounds lon_bounds : Int × Int)
    (ax : String × List Int) : List Nat :=
  if ax.1 = lat_name then maskIdxs ax.2 lat_bounds.1 lat_bounds.2
  else if ax.1 = lon_name then maskIdxs ax.2 lon_bounds.1 lon_bounds.2
  else List.range ax.2.length

/-- One axis under the specification's reading of `subset_domain`: the
latitude axis keeps the labels in the closed latitude interval, the
longitude axis those in the closed longitude interval, any other axis is
untouched. -/
def specAxisCoords (lat_name lon_name : String) (lat_bounds lon_bounds : Int × Int)
    (ax : String × List Int) : String × List Int :=
  (ax.1, if ax.1 = lat_name then ax.2.filter (inClosed lat_bounds.1 lat_bounds.2)
         else if ax.1 = lon_name then ax.2.filter (inClosed lon_bounds.1 lon_bounds.2)
         else ax.2)

/-- The specification's reading of `subset_domain`: the field restricted to
exactly those samples whose latitude label lies in the closed latitude
interval and whose longitude label lies in the closed longitude interval,
coordinates filtered by value accordingly. -/
def subsetSpec (da : DataArray) (lat_bounds lon_bounds : Int × Int)
    (lat_name lon_name : String) : DataArray :=
  ⟨da.axes.map (specAxisCoords lat_name lon_name lat_bounds lon_bounds),
   gatherFlat (da.axes.map (fun ax =>
      (specAxisIdxs lat_name lon_name lat_bounds lon_bounds ax, ax.2.length))) da.data⟩

/-- The observable state of the plotting side effects (`plot_goes.py`):
how many matplotlib figures are open, which directories exist, which image
files exist (path with the dpi of the last write), and the confirmation
messages printed so far (recorded by saved path). -/
structure RenderWorld where
  openFigures : Nat
  dirs : List FPath
  files : List (FPath × Nat)
  confirmations : List FPath
deriving DecidableEq

/-- Result of one `plot_goes_scene` call: the world afterwards and the
`savefig` write events the call performed (path and dpi). -/
structure RenderRes where
  world : RenderWorld
  writes : List (FPath × Nat)
deriving DecidableEq

/-- `plot_goes_scene` (`plot_goes.py`), restricted to its resource and file
effects: `plt.figure` opens a figure; when `save_path` is given,
`save_path.parent.mkdir(parents=True, exist_ok=True)` ensures the parent
directory, `fig.savefig(save_path, dpi=150)` writes (or overwrites) the
image, and the confirmation line is printed; finally `plt.show()` keeps the
figure open when `show=True`, and `plt.close(fig)` releases it otherwise.
The drawing arguments (extent, cmap, title, flight track) configure the
figure's contents and have no further observable effect here. -/
def plot_goes_scene (w : RenderWorld) (save_path : Option FPath) (showFig : Bool) :
    RenderRes :=
  let w1 : RenderWorld := { w with openFigures := w.openFigures + 1 }
  let step : RenderWorld × List (FPath × Nat) :=
    match save_path with
    | none => (w1, [])
    | some p =>
      let w2 : RenderWorld :=
        { w1 with dirs := if p.dropLast ∈ w1.dirs then w1.dirs else p.dropLast :: w1.dirs }
      ({ w2 with
          files := (p, 150) :: w2.files.filter (fun f => !decide (f.1 = p)),
          confirmations := w2.confirmations ++ [p] }, [(p, 150)])
  if showFig then ⟨step.1, step.2⟩
  else ⟨{ step.1 with openFigures := step.1.openFigures - 1 }, step.2⟩

theorem ensure_dir_ok_mem {fs fs1 : FS} {p : FPath} (h : ensure_dir fs p = .ok fs1) :
    p ∈ fs1.dirs := by
  unfold ensure_dir at h
  split at h
  · cases h
    assumption
  · split at h
    · cases h
    · split at h
      · cases h
      · cases h
        exact List.mem_cons_self _ _

/-- C1: for every URL and destination directory such that the file at
`out_dir / last_path_segment(url)` already exists, `download_file` performs
zero network calls, returns that existing path, and leaves the filesystem
(in particular the existing file's contents) entirely unchanged. The
destination directory exists, as it must for a file to exist inside it. -/
theorem download_file_dedup (net : Net) (fs : FS) (url : String) (out_dir : FPath)
    (hdir : out_dir ∈ fs.dirs)
    (hfile : pathJoin out_dir (lastSegment url) ∈ fs.files.map Prod.fst) :
    download_file net fs url out_dir =
      ⟨.ok (pathJoin out_dir (lastSegment url)), fs, []⟩ := by
  unfold download_file ensure_dir
  simp only [if_pos hdir]
  have hex : pathExists fs (pathJoin out_dir (lastSegment url)) = true := by
    unfold pathExists
    simp [hfile]
  simp [hex]

/-- Witness for C1 at a concrete store: `data/f.nc` already exists, so the
download of `http://host/f.nc` into `data` is a no-op returning it. -/
theorem download_file_dedup_witness :
    download_file (fun _ => .fail)
      ⟨[["data"]], [(["data", "f.nc"], [7, 8])], []⟩ "http://host/f.nc" ["data"] =
      ⟨.ok (pathJoin ["data"] (lastSegment "http://host/f.nc")),
       ⟨[["data"]], [(["data", "f.nc"], [7, 8])], []⟩, []⟩ :=
  download_file_dedup _ _ _ _ (by decide) (by decide)

/-- C10: for every URL with an empty last path segment (URLs ending in
`/`), the target path is `out_dir` itself; once `ensure_dir` has succeeded
that directory exists, so the existence check succeeds and `download_file`
returns the `out_dir` path with no HTTP request and no error, whatever the
network would have answered. -/
theorem download_file_empty_segment (net : Net) (fs : FS) (url : String) (out_dir : FPath)
    (hseg : lastSegment url = "")
    (hok : ∃ fs1, ensure_dir fs out_dir = .ok fs1) :
    (download_file net fs url out_dir).res = .ok out_dir ∧
    (download_file net fs url out_dir).requested = [] := by
  obtain ⟨fs1, h1⟩ := hok
  have hmem := ensure_dir_ok_mem h1
  have hjoin : pathJoin out_dir (lastSegment url) = out_dir := by
    rw [hseg]
    rfl
  have hex : pathExists fs1 out_dir = true := by
    unfold pathExists
    simp [hmem]
  unfold download_file
  rw [h1]
  simp [hjoin, hex]

/-- Witness for C10: downloading `http://host/files/` into a fresh `data`
directory returns the directory path without touching the network. -/
theorem download_file_empty_segment_witness :
    (download_file (fun _ => .resp 200 [1]) ⟨[], [], []⟩ "http://host/files/" ["data"]).res =
      .ok ["data"] ∧
    (download_file (fun _ => .resp 200 [1]) ⟨[], [], []⟩ "http://host/files/" ["data"]).requested =
      [] :=
  download_file_empty_segment _ _ _ _ (by decide) ⟨⟨[["data"]], [], []⟩, by decide⟩

theorem download_many_loop_spec (net : Net) (out_dir : FPath) :
    ∀ (urls : List String) (fs : FS),
      (download_many_loop net fs urls out_dir).attempted = urls ∧
      (download_many_loop net fs urls out_dir).paths =
        (download_outcomes net fs urls out_dir).filterMap Except.toOption := by
  intro urls
  induction urls with
  | nil => exact fun fs => ⟨rfl, rfl⟩
  | cons u rest ih =>
    intro fs
    unfold download_many_loop download_outcomes
    cases hr : (download_file net fs u out_dir).res <;>
      simp [hr, Except.toOption, (ih _).1, (ih _).2]

/-- C2: `download_many` never raises (the blanket per-URL `except` catches
every failure), attempts every URL in the given order, and returns exactly
the paths of the URLs whose `download_file` outcome succeeded, in input
order. -/
theorem download_many_isolates_failures (net : Net) (fs : FS) (urls : List String)
    (out_dir : FPath) :
    download_many net fs urls out_dir = .ok (download_many_loop net fs urls out_dir) ∧
    (download_many_loop net fs urls out_dir).attempted = urls ∧
    (download_many_loop net fs urls out_dir).paths =
      (download_outcomes net fs urls out_dir).filterMap Except.toOption :=
  ⟨rfl, (download_many_loop_spec net out_dir urls fs).1,
    (download_many_loop_spec net out_dir urls fs).2⟩

/-- C6 counterexample: `data` cannot be created (permission denied), yet
`download_many` returns normally with an empty result instead of raising —
the `ensure_dir` call sits inside `download_file`, inside the per-URL `try`
boundary. -/
theorem download_many_mkdir_failure_counterexample :
    ensure_dir ⟨[], [], [["data"]]⟩ ["data"] = .error "PermissionError" ∧
    download_many (fun _ => .fail) ⟨[], [], [["data"]]⟩ ["http://host/a.nc"] ["data"] =
      .ok ⟨[], ⟨[], [], [["data"]]⟩, [], ["http://host/a.nc"]⟩ := by
  constructor <;> rfl

/-- C6 (amended): filesystem errors propagate uncaught from `ensure_dir`
and `download_file`; but in `download_many` the per-URL `try` wraps the
whole `download_file` call including its `ensure_dir`, so when `out_dir`
cannot be created every URL's failure is caught and logged and
`download_many` returns an empty result to its caller without raising. -/
theorem download_many_catches_mkdir_failure (net : Net) (fs : FS) (urls : List String)
    (out_dir : FPath) (e : String) (h : ensure_dir fs out_dir = .error e) :
    (∀ url, (download_file net fs url out_dir).res = .error (.fsError e)) ∧
    download_many net fs urls out_dir = .ok ⟨[], fs, [], urls⟩ := by
  have hfile : ∀ url, download_file net fs url out_dir = ⟨.error (.fsError e), fs, []⟩ := by
    intro url
    unfold download_file
    rw [h]
  refine ⟨fun url => by rw [hfile url], ?_⟩
  unfold download_many
  have hloop : ∀ us, download_many_loop net fs us out_dir = ⟨[], fs, [], us⟩ := by
    intro us
    induction us with
    | nil => rfl
    | cons u rest ih =>
      unfold download_many_loop
      rw [hfile u]
      simp [ih]
  rw [hloop urls]

/-- Witness for the amended C6 at a concrete store with `data` denied. -/
theorem download_many_catches_mkdir_failure_witness :
    (download_file (fun _ => .fail) ⟨[], [], [["data"]]⟩ "http://host/b.nc" ["data"]).res =
      .error (.fsError "PermissionError") ∧
    download_many (fun _ => .fail) ⟨[], [], [["data"]]⟩ ["http://host/b.nc"] ["data"] =
      .ok ⟨[], ⟨[], [], [["data"]]⟩, [], ["http://host/b.nc"]⟩ :=
  ⟨(download_many_catches_mkdir_failure (fun _ => .fail) ⟨[], [], [["data"]]⟩
      ["http://host/b.nc"] ["data"] "PermissionError" (by decide)).1 "http://host/b.nc",
   (download_many_catches_mkdir_failure (fun _ => .fail) ⟨[], [], [["data"]]⟩
      ["http://host/b.nc"] ["data"] "PermissionError" (by decide)).2⟩

theorem rstripSlash_append_slash (s : String) :
    rstripSlash (s ++ "/") = rstripSlash s := by
  unfold rstripSlash
  rw [String.data_append]
  have hd : ("/" : String).data = ['/'] := rfl
  simp [hd]

/-- C7: `build_goes_example_url` normalizes a trailing slash away from the
base (appending one does not change the result) and joins base and filename
with a single slash, with no validation; both spec examples hold. -/
theorem build_goes_example_url_spec :
    (∀ base fn : String,
      build_goes_example_url (base ++ "/") fn = build_goes_example_url base fn) ∧
    build_goes_example_url "https://example.com/data/" "file.nc" =
      "https://example.com/data/file.nc" ∧
    build_goes_example_url "https://example.com/data" "file.nc" =
      "https://example.com/data/file.nc" := by
  refine ⟨fun base fn => ?_, by rfl, by rfl⟩
  unfold build_goes_example_url
  rw [rstripSlash_append_slash]

/-- C9: a `plot_goes_scene` call with `save_path` set and `show=False`
ensures the parent directory of `save_path` exists, performs exactly one
image write at `save_path` at 150 dpi, emits the confirmation message, and
releases the figure (the open-figure count returns to its prior value); a
second call with the same `save_path` overwrites the file without error,
leaving a single file entry at that path and again no figure open. -/
theorem plot_goes_scene_save_effects (w : RenderWorld) (p : FPath) :
    (plot_goes_scene w (some p) false).world.openFigures = w.openFigures ∧
    (plot_goes_scene w (some p) false).writes = [(p, 150)] ∧
    p.dropLast ∈ (plot_goes_scene w (some p) false).world.dirs ∧
    (plot_goes_scene w (some p) false).world.files.lookup p = some 150 ∧
    (plot_goes_scene w (some p) false).world.confirmations = w.confirmations ++ [p] ∧
    (plot_goes_scene (plot_goes_scene w (some p) false).world (some p) false).writes =
      [(p, 150)] ∧
    (plot_goes_scene (plot_goes_scene w (some p) false).world (some p) false).world.files.lookup
      p = some 150 ∧
    ((plot_goes_scene (plot_goes_scene w (some p) false).world (some p) false).world.files.filter
      (fun f => decide (f.1 = p))).length = 1 ∧
    (plot_goes_scene (plot_goes_scene w (some p) false).world (some p) false).world.openFigures =
      w.openFigures := by
  by_cases hm : p.dropLast ∈ w.dirs <;>
    simp [plot_goes_scene, hm, List.lookup_cons, List.filter_filter]

theorem countP_down_iff {p : Int → Bool}
    (hmono : ∀ a b : Int, a ≤ b → p b = true → p a = true) :
    ∀ (l : List Int), l.Pairwise (· ≤ ·) →
      ∀ (i : Nat) (h : i < l.length), (p (l.get ⟨i, h⟩) = true ↔ i < l.countP p) := by
  intro l
  induction l with
  | nil => intro _ i h; exact absurd h (Nat.not_lt_zero i)
  | cons x xs ih =>
    intro hs i h
    have hx : ∀ y ∈ xs, x ≤ y := fun y hy => (List.pairwise_cons.mp hs).1 y hy
    have hxs : xs.Pairwise (· ≤ ·) := (List.pairwise_cons.mp hs).2
    have hzero : p x = false → xs.countP p = 0 := by
      intro hpx
      refine List.countP_eq_zero.mpr (fun y hy hpy => ?_)
      have := hmono x y (hx y hy) hpy
      rw [hpx] at this
      cases this
    match i with
    | 0 =>
      simp only [List.get, List.countP_cons]
      cases hpx : p x with
      | true => simp
      | false =>
        simp only [hzero hpx]
        simp [hpx]
    | Nat.succ j =>
      have hj : j < xs.length := Nat.lt_of_succ_lt_succ h
      simp only [List.get, List.countP_cons]
      cases hpx : p x with
      | true =>
        rw [ih hxs j hj]
        simp
      | false =>
        have hne : p (xs.get ⟨j, hj⟩) = false := by
          cases hpy : p (xs.get ⟨j, hj⟩) with
          | false => rfl
          | true =>
            have := hmono x _ (hx _ (xs.get_mem _ _)) hpy
            rw [hpx] at this
            cases this
        simp only [List.get_eq_getElem] at hne
        simp [hne, hzero hpx]

theorem selIdxs_eq_maskIdxs {coords : List Int} (hs : coords.Pairwise (· ≤ ·))
    (lo hi : Int) : selIdxs coords lo hi = maskIdxs coords lo hi := by
  unfold selIdxs maskIdxs selWindow
  refine List.filter_congr (fun i hi' => ?_)
  have hlt : i < coords.length := List.mem_range.mp hi'
  have hget : coords.getD i 0 = coords.get ⟨i, hlt⟩ := by
    simp [List.getD, List.getElem?_eq_getElem hlt, List.get_eq_getElem]
  have h1 := @countP_down_iff (fun c => decide (c < lo))
    (fun a b hab hb => by
      simp only [decide_eq_true_eq] at *
      exact lt_of_le_of_lt hab hb) coords hs i hlt
  have h2 := @countP_down_iff (fun c => decide (c ≤ hi))
    (fun a b hab hb => by
      simp only [decide_eq_true_eq] at *
      exact le_trans hab hb) coords hs i hlt
  simp only [decide_eq_true_eq] at h1 h2
  rw [hget]
  unfold inClosed
  rw [Bool.eq_iff_iff]
  simp only [Bool.and_eq_true, decide_eq_true_eq]
  constructor
  · rintro ⟨ha, hb⟩
    exact ⟨not_lt.mp (fun hc => absurd (h1.mp hc) (not_lt.mpr ha)), h2.mpr hb⟩
  · rintro ⟨ha, hb⟩
    refine ⟨?_, h2.mp hb⟩
    by_contra hc
    exact absurd (h1.mpr (not_le.mp hc)) (not_lt.mpr ha)

theorem filterMap_get_mask (l : List Int) (p : Int → Bool) :
    ((List.range l.length).filter (fun i => p (l.getD i 0))).filterMap (fun i => l.get? i) =
      l.filter p := by
  induction l with
  | nil => rfl
  | cons x xs ih =>
    simp only [List.length_cons, List.range_succ_eq_map, List.filter_cons, List.getD_cons_zero,
      List.filter_map, List.filterMap_map]
    have ihg : List.filterMap (fun i => xs[i]?)
        (List.filter (fun i => p (xs[i]?.getD 0)) (List.range xs.length)) = List.filter p xs := by
      simpa [List.getD, List.get?_eq_getElem?] using ih
    cases hpx : p x <;>
      simp [hpx, Function.comp_def, List.filterMap_cons, List.getElem?_cons_succ,
        List.getD, List.get?_eq_getElem?, ihg]

theorem filterMap_get_length (l : List Int) (is : List Nat)
    (h : ∀ i ∈ is, i < l.length) :
    (is.filterMap (fun i => l.get? i)).length = is.length := by
  induction is with
  | nil => rfl
  | cons i it ih =>
    have hi : i < l.length := h i (List.mem_cons_self _ _)
    rw [List.filterMap_cons, List.get?_eq_get hi]
    simp only [List.length_cons]
    rw [ih (fun j hj => h j (List.mem_cons_of_mem _ hj))]

theorem chunks_join (bs : Nat) :
    ∀ (n : Nat) (data : List Int), data.length = n * bs →
      (List.range n).flatMap (fun i => (data.drop (i * bs)).take bs) = data := by
  intro n
  induction n with
  | zero =>
    intro data h
    rw [Nat.zero_mul] at h
    rw [List.length_eq_zero.mp h]
    rfl
  | succ m ih =>
    intro data h
    rw [List.range_succ_eq_map, List.flatMap_cons]
    have htail : (List.map Nat.succ (List.range m)).flatMap
        (fun i => (data.drop (i * bs)).take bs) =
        (List.range m).flatMap (fun i => ((data.drop bs).drop (i * bs)).take bs) := by
      rw [List.flatMap_map]
      refine List.flatMap_congr (fun i _ => ?_)
      rw [List.drop_drop, Nat.succ_mul, Nat.add_comm (i * bs) bs]
    rw [htail, ih (data.drop bs) (by rw [List.length_drop, h, Nat.succ_mul]; omega)]
    simp [List.take_append_drop]

theorem gatherFlat_ranges :
    ∀ (axs : List Nat) (data : List Int), data.length = axs.prod →
      gatherFlat (axs.map (fun n => (List.range n, n))) data = data := by
  intro axs
  induction axs with
  | nil => intro data _; rfl
  | cons n ns ih =>
    intro data h
    have hbs : ((ns.map (fun m => (List.range m, m))).map Prod.snd).prod = ns.prod := by
      rw [List.map_map]
      simp [Function.comp_def]
    have hcons : gatherFlat ((n :: ns).map (fun m => (List.range m, m))) data =
        (List.range n).flatMap (fun i =>
          gatherFlat (ns.map (fun m => (List.range m, m)))
            ((data.drop (i * ((ns.map (fun m => (List.range m, m))).map Prod.snd).prod)).take
              (((ns.map (fun m => (List.range m, m))).map Prod.snd).prod))) := rfl
    rw [hcons]
    simp only [hbs]
    have hinner : ∀ i ∈ List.range n,
        gatherFlat (ns.map (fun m => (List.range m, m)))
          ((data.drop (i * ns.prod)).take ns.prod) =
        (data.drop (i * ns.prod)).take ns.prod := by
      intro i hi
      refine ih _ ?_
      have hin : i < n := List.mem_range.mp hi
      have h1 : (i + 1) * ns.prod ≤ n * ns.prod :=
        Nat.mul_le_mul_right _ (Nat.succ_le_of_lt hin)
      rw [Nat.succ_mul] at h1
      rw [List.length_take, List.length_drop, h, List.prod_cons, inf_eq_min]
      exact min_eq_left (by omega)
    rw [List.flatMap_congr hinner]
    exact chunks_join ns.prod n data (by rw [h, List.prod_cons])

theorem gatherFlat_length :
    ∀ (axs : List (List Nat × Nat)) (data : List Int),
      data.length = (axs.map Prod.snd).prod →
      (∀ ax ∈ axs, ∀ i ∈ ax.1, i < ax.2) →
      (gatherFlat axs data).length = (axs.map (fun ax => ax.1.length)).prod := by
  intro axs
  induction axs with
  | nil =>
    intro data h _
    simpa using h
  | cons ax rest ih =>
    intro data h hidx
    obtain ⟨is, n⟩ := ax
    have hcons : gatherFlat ((is, n) :: rest) data =
        is.flatMap (fun i =>
          gatherFlat rest ((data.drop (i * (rest.map Prod.snd).prod)).take
            ((rest.map Prod.snd).prod))) := rfl
    rw [hcons, List.length_flatMap]
    have heach : ∀ i ∈ is,
        (List.length ∘ fun i =>
          gatherFlat rest ((data.drop (i * (rest.map Prod.snd).prod)).take
            ((rest.map Prod.snd).prod))) i =
        (rest.map (fun ax => ax.1.length)).prod := by
      intro i hi
      have hin : i < n := hidx (is, n) (List.mem_cons_self _ _) i hi
      refine ih _ ?_ (fun ax hax => hidx ax (List.mem_cons_of_mem _ hax))
      have hdl : data.length = n * (rest.map Prod.snd).prod := by
        rw [h, List.map_cons, List.prod_cons]
      have h1 : (i + 1) * (rest.map Prod.snd).prod ≤ n * (rest.map Prod.snd).prod :=
        Nat.mul_le_mul_right _ (Nat.succ_le_of_lt hin)
      rw [Nat.succ_mul] at h1
      rw [List.length_take, List.length_drop, hdl, inf_eq_min]
      exact min_eq_left (by omega)
    rw [List.map_congr_left heach, List.map_const', List.sum_replicate, smul_eq_mul,
      List.map_cons, List.prod_cons]

theorem subset_domain_eq_spec (da : DataArray) (latb lonb : Int × Int)
    (latN lonN : String) (hne : latN ≠ lonN)
    (hlat : da.axes.any (fun ax => ax.1 == latN) = true)
    (hlon : da.axes.any (fun ax => ax.1 == lonN) = true)
    (hasc : ∀ ax ∈ da.axes, (ax.1 = latN ∨ ax.1 = lonN) → List.Pairwise (· ≤ ·) ax.2) :
    subset_domain da latb lonb latN lonN = .ok (subsetSpec da latb lonb latN lonN) := by
  unfold subset_domain
  rw [if_neg hne]
  set sels : List (String × Int × Int) := [(latN, latb.1, latb.2), (lonN, lonb.1, lonb.2)]
    with hsels
  have hlk : ∀ ax : String × List Int, sels.lookup ax.1 =
      if ax.1 = latN then some (latb.1, latb.2)
      else if ax.1 = lonN then some (lonb.1, lonb.2) else none := by
    intro ax
    rw [hsels]
    by_cases h1 : ax.1 = latN
    · simp [List.lookup_cons, h1]
    · by_cases h2 : ax.1 = lonN
      · have hb1 : (lonN == latN) = false := beq_eq_false_iff_ne.mpr (Ne.symm hne)
        simp [List.lookup_cons, h2, hb1, Ne.symm hne]
      · have hb1 : (ax.1 == latN) = false := beq_eq_false_iff_ne.mpr h1
        have hb2 : (ax.1 == lonN) = false := beq_eq_false_iff_ne.mpr h2
        simp [List.lookup_cons, hb1, hb2, h1, h2]
  have hidx : ∀ ax ∈ da.axes, axisIdxs sels ax = specAxisIdxs latN lonN latb lonb ax := by
    intro ax hax
    unfold axisIdxs specAxisIdxs
    rw [hlk ax]
    by_cases h1 : ax.1 = latN
    · rw [if_pos h1, if_pos h1]
      exact selIdxs_eq_maskIdxs (hasc ax hax (Or.inl h1)) _ _
    · rw [if_neg h1, if_neg h1]
      by_cases h2 : ax.1 = lonN
      · rw [if_pos h2, if_pos h2]
        exact selIdxs_eq_maskIdxs (hasc ax hax (Or.inr h2)) _ _
      · rw [if_neg h2, if_neg h2]
  unfold DataArray.sel
  have hg1 : sels.all (fun s => da.axes.any (fun ax => ax.1 == s.1)) = true := by
    rw [hsels]
    simp [hlat, hlon]
  have hg2 : (da.axes.all (fun ax =>
      if (sels.lookup ax.1).isSome then decide (List.Pairwise (· ≤ ·) ax.2) else true)) = true := by
    rw [List.all_eq_true]
    intro ax hax
    rw [hlk ax]
    by_cases h1 : ax.1 = latN
    · rw [if_pos h1]
      simp only [Option.isSome_some, if_true]
      exact decide_eq_true (hasc ax hax (Or.inl h1))
    · rw [if_neg h1]
      by_cases h2 : ax.1 = lonN
      · rw [if_pos h2]
        simp only [Option.isSome_some, if_true]
        exact decide_eq_true (hasc ax hax (Or.inr h2))
      · rw [if_neg h2]
        simp
  rw [if_neg (fun hc => hc hg1), if_neg (fun hc => hc hg2)]
  unfold subsetSpec
  have haxes : da.axes.map
      (fun ax => (ax.1, (axisIdxs sels ax).filterMap (fun i => ax.2.get? i))) =
      da.axes.map (specAxisCoords latN lonN latb lonb) := by
    refine List.map_congr_left (fun ax hax => ?_)
    rw [hidx ax hax]
    unfold specAxisIdxs specAxisCoords
    by_cases h1 : ax.1 = latN
    · rw [if_pos h1, if_pos h1]
      exact congrArg _ (filterMap_get_mask ax.2 _)
    · rw [if_neg h1, if_neg h1]
      by_cases h2 : ax.1 = lonN
      · rw [if_pos h2, if_pos h2]
        exact congrArg _ (filterMap_get_mask ax.2 _)
      · rw [if_neg h2, if_neg h2]
        have hall := filterMap_get_mask ax.2 (fun _ => true)
        simp only [List.filter_true] at hall
        exact congrArg _ hall
  have hdata : gatherFlat (da.axes.map (fun ax => (axisIdxs sels ax, ax.2.length))) da.data =
      gatherFlat (da.axes.map (fun ax =>
        (specAxisIdxs latN lonN latb lonb ax, ax.2.length))) da.data := by
    rw [List.map_congr_left (fun ax hax => by rw [hidx ax hax])]
  rw [haxes, hdata]

theorem inClosed_widen {lo hi lo2 hi2 c : Int} (h1 : lo2 ≤ lo) (h2 : hi ≤ hi2)
    (hc : inClosed lo hi c = true) : inClosed lo2 hi2 c = true := by
  unfold inClosed at *
  simp only [Bool.and_eq_true, decide_eq_true_eq] at *
  exact ⟨le_trans h1 hc.1, le_trans hc.2 h2⟩

theorem maskIdxs_length (l : List Int) (lo hi : Int) :
    (maskIdxs l lo hi).length = (l.filter (inClosed lo hi)).length := by
  have h1 := filterMap_get_mask l (inClosed lo hi)
  have h2 : (List.filterMap (fun i => l.get? i) (maskIdxs l lo hi)).length =
      (maskIdxs l lo hi).length := by
    refine filterMap_get_length l _ (fun i hi2 => ?_)
    unfold maskIdxs at hi2
    exact List.mem_range.mp (List.mem_of_mem_filter hi2)
  rw [← h2]
  exact congrArg List.length h1

theorem maskIdxs_all (l : List Int) (lo hi : Int)
    (hall : ∀ c ∈ l, inClosed lo hi c = true) :
    maskIdxs l lo hi = List.range l.length := by
  unfold maskIdxs
  refine List.filter_eq_self.mpr (fun i hi2 => ?_)
  have hlt : i < l.length := List.mem_range.mp hi2
  have hget : l.getD i 0 = l.get ⟨i, hlt⟩ := by
    simp [List.getD, List.getElem?_eq_getElem hlt, List.get_eq_getElem]
  rw [hget]
  exact hall _ (l.get_mem _ _)

theorem specAxisCoords_widen (latb lonb latb2 lonb2 : Int × Int) (latN lonN : String)
    (hw1 : latb2.1 ≤ latb.1) (hw2 : latb.2 ≤ latb2.2)
    (hw3 : lonb2.1 ≤ lonb.1) (hw4 : lonb.2 ≤ lonb2.2) (ax : String × List Int) :
    specAxisCoords latN lonN latb2 lonb2 (specAxisCoords latN lonN latb lonb ax) =
      specAxisCoords latN lonN latb lonb ax := by
  unfold specAxisCoords
  dsimp only
  by_cases h1 : ax.1 = latN
  · simp only [if_pos h1]
    exact congrArg _ (List.filter_eq_self.mpr
      (fun c hc => inClosed_widen hw1 hw2 (List.of_mem_filter hc)))
  · simp only [if_neg h1]
    by_cases h2 : ax.1 = lonN
    · simp only [if_pos h2]
      exact congrArg _ (List.filter_eq_self.mpr
        (fun c hc => inClosed_widen hw3 hw4 (List.of_mem_filter hc)))
    · simp only [if_neg h2]

theorem specAxisIdxs_widen (latb lonb latb2 lonb2 : Int × Int) (latN lonN : String)
    (hw1 : latb2.1 ≤ latb.1) (hw2 : latb.2 ≤ latb2.2)
    (hw3 : lonb2.1 ≤ lonb.1) (hw4 : lonb.2 ≤ lonb2.2) (ax : String × List Int) :
    specAxisIdxs latN lonN latb2 lonb2 (specAxisCoords latN lonN latb lonb ax) =
      List.range (specAxisCoords latN lonN latb lonb ax).2.length := by
  unfold specAxisIdxs specAxisCoords
  dsimp only
  by_cases h1 : ax.1 = latN
  · simp only [if_pos h1]
    exact maskIdxs_all _ _ _ (fun c hc => inClosed_widen hw1 hw2 (List.of_mem_filter hc))
  · simp only [if_neg h1]
    by_cases h2 : ax.1 = lonN
    · simp only [if_pos h2]
      exact maskIdxs_all _ _ _ (fun c hc => inClosed_widen hw3 hw4 (List.of_mem_filter hc))
    · simp only [if_neg h2]

theorem specAxisIdxs_length (latb lonb : Int × Int) (latN lonN : String)
    (ax : String × List Int) :
    (specAxisIdxs latN lonN latb lonb ax).length =
      (specAxisCoords latN lonN latb lonb ax).2.length := by
  unfold specAxisIdxs specAxisCoords
  dsimp only
  by_cases h1 : ax.1 = latN
  · simp only [if_pos h1]
    exact maskIdxs_length _ _ _
  · simp only [if_neg h1]
    by_cases h2 : ax.1 = lonN
    · simp only [if_pos h2]
      exact maskIdxs_length _ _ _
    · simp only [if_neg h2]
      exact List.length_range _

theorem specAxisIdxs_lt (latb lonb : Int × Int) (latN lonN : String)
    (ax : String × List Int) :
    ∀ i ∈ specAxisIdxs latN lonN latb lonb ax, i < ax.2.length := by
  intro i hi
  unfold specAxisIdxs at hi
  by_cases h1 : ax.1 = latN
  · rw [if_pos h1] at hi
    unfold maskIdxs at hi
    exact List.mem_range.mp (List.mem_of_mem_filter hi)
  · rw [if_neg h1] at hi
    by_cases h2 : ax.1 = lonN
    · rw [if_pos h2] at hi
      unfold maskIdxs at hi
      exact List.mem_range.mp (List.mem_of_mem_filter hi)
    · rw [if_neg h2] at hi
      exact List.mem_range.mp hi

/-- C3: for every field whose named latitude and longitude coordinate axes
exist and are in ascending order, `subset_domain` never raises — even when
the bounds miss the coordinate range, in which case the result is empty —
and returns exactly the label-based restriction of the field: coordinates
filtered by value to the closed intervals, and precisely the samples whose
latitude and longitude labels lie in those intervals. -/
theorem subset_domain_label_selection (da : DataArray) (latb lonb : Int × Int)
    (latN lonN : String) (hne : latN ≠ lonN)
    (hlat : da.axes.any (fun ax => ax.1 == latN) = true)
    (hlon : da.axes.any (fun ax => ax.1 == lonN) = true)
    (hasc : ∀ ax ∈ da.axes, (ax.1 = latN ∨ ax.1 = lonN) → List.Pairwise (· ≤ ·) ax.2) :
    subset_domain da latb lonb latN lonN = .ok (subsetSpec da latb lonb latN lonN) :=
  subset_domain_eq_spec da latb lonb latN lonN hne hlat hlon hasc

/-- Witness for C3 on a concrete 3×2 field with ascending axes. -/
theorem subset_domain_label_selection_witness :
    subset_domain ⟨[("y", [-2, 0, 3]), ("x", [10, 20])], [1, 2, 3, 4, 5, 6]⟩
      (-1, 5) (10, 15) "y" "x" =
      .ok (subsetSpec ⟨[("y", [-2, 0, 3]), ("x", [10, 20])], [1, 2, 3, 4, 5, 6]⟩
        (-1, 5) (10, 15) "y" "x") :=
  subset_domain_label_selection _ _ _ _ _ (by decide) (by decide) (by decide) (by decide)

/-- C8: `subset_domain` is idempotent on fields with ascending named axes
and well-formed sample storage: subsetting the once-subsetted field a
second time with the same or wider bounds returns the once-subsetted field
unchanged. -/
theorem subset_domain_idem (da : DataArray) (latb lonb latb2 lonb2 : Int × Int)
    (latN lonN : String) (hne : latN ≠ lonN)
    (hlat : da.axes.any (fun ax => ax.1 == latN) = true)
    (hlon : da.axes.any (fun ax => ax.1 == lonN) = true)
    (hasc : ∀ ax ∈ da.axes, (ax.1 = latN ∨ ax.1 = lonN) → List.Pairwise (· ≤ ·) ax.2)
    (hlen : da.data.length = (da.axes.map (fun ax => ax.2.length)).prod)
    (hw1 : latb2.1 ≤ latb.1) (hw2 : latb.2 ≤ latb2.2)
    (hw3 : lonb2.1 ≤ lonb.1) (hw4 : lonb.2 ≤ lonb2.2) :
    ∃ da1, subset_domain da latb lonb latN lonN = .ok da1 ∧
      subset_domain da1 latb2 lonb2 latN lonN = .ok da1 := by
  refine ⟨subsetSpec da latb lonb latN lonN,
    subset_domain_eq_spec da latb lonb latN lonN hne hlat hlon hasc, ?_⟩
  set da1 := subsetSpec da latb lonb latN lonN with hda1
  have haxes1 : da1.axes = da.axes.map (specAxisCoords latN lonN latb lonb) := rfl
  have hdata1 : da1.data = gatherFlat (da.axes.map (fun ax =>
      (specAxisIdxs latN lonN latb lonb ax, ax.2.length))) da.data := rfl
  have hlat1 : da1.axes.any (fun ax => ax.1 == latN) = true := by
    rw [haxes1, List.any_map]
    exact hlat
  have hlon1 : da1.axes.any (fun ax => ax.1 == lonN) = true := by
    rw [haxes1, List.any_map]
    exact hlon
  have hasc1 : ∀ ax ∈ da1.axes, (ax.1 = latN ∨ ax.1 = lonN) →
      List.Pairwise (· ≤ ·) ax.2 := by
    rw [haxes1]
    intro ax hax hn
    obtain ⟨ax0, hax0, rfl⟩ := List.mem_map.mp hax
    have h0 := hasc ax0 hax0 hn
    unfold specAxisCoords
    dsimp only
    by_cases h1 : ax0.1 = latN
    · simp only [if_pos h1]
      exact h0.filter _
    · simp only [if_neg h1]
      by_cases h2 : ax0.1 = lonN
      · simp only [if_pos h2]
        exact h0.filter _
      · simp only [if_neg h2]
        exact h0
  rw [subset_domain_eq_spec da1 latb2 lonb2 latN lonN hne hlat1 hlon1 hasc1]
  have hlen1 : da1.data.length = (da1.axes.map (fun ax => ax.2.length)).prod := by
    rw [hdata1, haxes1, List.map_map]
    rw [gatherFlat_length _ da.data ?hl ?hidx2]
    case hl =>
      rw [List.map_map]
      exact hlen
    case hidx2 =>
      intro ax hax
      obtain ⟨ax0, hax0, rfl⟩ := List.mem_map.mp hax
      exact fun i hi => specAxisIdxs_lt latb lonb latN lonN ax0 i hi
    rw [List.map_map]
    refine congrArg List.prod (List.map_congr_left (fun ax _ => ?_))
    exact specAxisIdxs_length latb lonb latN lonN ax
  have haxes2 : da1.axes.map (specAxisCoords latN lonN latb2 lonb2) = da1.axes := by
    rw [haxes1, List.map_map]
    exact List.map_congr_left
      (fun ax0 _ => specAxisCoords_widen latb lonb latb2 lonb2 latN lonN hw1 hw2 hw3 hw4 ax0)
  have hdata2 : gatherFlat (da1.axes.map (fun ax =>
      (specAxisIdxs latN lonN latb2 lonb2 ax, ax.2.length))) da1.data = da1.data := by
    have hmapeq : da1.axes.map
        (fun ax => (specAxisIdxs latN lonN latb2 lonb2 ax, ax.2.length)) =
        (da1.axes.map (fun ax => ax.2.length)).map (fun n => (List.range n, n)) := by
      rw [List.map_map]
      refine List.map_congr_left (fun ax hax => ?_)
      have hax' : ax ∈ da.axes.map (specAxisCoords latN lonN latb lonb) := by
        rw [← haxes1]
        exact hax
      obtain ⟨ax0, hax0, rfl⟩ := List.mem_map.mp hax'
      have hw := specAxisIdxs_widen latb lonb latb2 lonb2 latN lonN hw1 hw2 hw3 hw4 ax0
      simp only [Function.comp_def]
      rw [hw]
    rw [hmapeq]
    exact gatherFlat_ranges _ da1.data hlen1
  unfold subsetSpec
  rw [haxes2, hdata2]

/-- Witness for C8 on a concrete 3×2 field: subsetting again with wider
bounds leaves the once-subsetted field unchanged. -/
theorem subset_domain_idem_witness :
    ∃ da1, subset_domain ⟨[("y", [-2, 0, 3]), ("x", [10, 20])], [1, 2, 3, 4, 5, 6]⟩
        (-1, 5) (10, 15) "y" "x" = .ok da1 ∧
      subset_domain da1 (-1, 6) (9, 15) "y" "x" = .ok da1 :=
  subset_domain_idem _ _ _ _ _ _ _ (by decide) (by decide) (by decide) (by decide)
    (by decide) (by decide) (by decide) (by decide) (by decide)

/-- C5: `select_variable` raises a lookup failure whose message contains
the requested variable name exactly when the name is absent from the
dataset's variable mapping, and returns the mapped field (raising nothing)
when it is present. -/
theorem select_variable_lookup (ds : Dataset) (var_name : String) :
    ((∃ msg, select_variable ds var_name = .error msg) ↔
      ds.vars.lookup var_name = none) ∧
    (∀ msg, select_variable ds var_name = .error msg →
      List.IsInfix var_name.data msg.data) ∧
    (∀ da, ds.vars.lookup var_name = some da → select_variable ds var_name = .ok da) := by
  have hsel : select_variable ds var_name =
      match ds.vars.lookup var_name with
      | some da => .ok da
      | none => .error ("KeyError: La variable \x27" ++ var_name ++
          "\x27 no existe en el Dataset.") := by
    unfold select_variable
    cases hlk : ds.vars.lookup var_name <;> simp [hlk]
  cases hlk : ds.vars.lookup var_name with
  | some da =>
    rw [hlk] at hsel
    refine ⟨⟨?_, ?_⟩, ?_, ?_⟩
    · rintro ⟨msg, hmsg⟩
      rw [hsel] at hmsg
      cases hmsg
    · intro h
      cases h
    · intro msg hmsg
      rw [hsel] at hmsg
      cases hmsg
    · intro da2 hda2
      cases hda2
      exact hsel
  | none =>
    rw [hlk] at hsel
    refine ⟨⟨fun _ => rfl, fun _ => ⟨_, hsel⟩⟩, ?_, ?_⟩
    · intro msg hmsg
      rw [hsel] at hmsg
      cases hmsg
      refine ⟨("KeyError: La variable \x27").data, ("\x27 no existe en el Dataset.").data, ?_⟩
      rw [← String.data_append, ← String.data_append]
    · intro da hda
      cases hda

/-- Witness for C5: the missing-variable message for `CMI` contains the
name, and a present variable is returned unchanged. -/
theorem select_variable_lookup_witness :
    List.IsInfix ("CMI" : String).data
      ("KeyError: La variable \x27CMI\x27 no existe en el Dataset." : String).data ∧
    select_variable ⟨[("CMI", ⟨[], [0]⟩)]⟩ "CMI" = .ok ⟨[], [0]⟩ :=
  ⟨(select_variable_lookup ⟨[]⟩ "CMI").2.1 _ (by decide),
   (select_variable_lookup ⟨[("CMI", ⟨[], [0]⟩)]⟩ "CMI").2.2 _ (by decide)⟩

/-- C4: `prepare_scene` is exactly the composition
`subset_domain (select_variable (open_goes_scene path) var_name) bounds`,
in that order, and a failure of an earlier step aborts the composition with
that error and no partial result. -/
theorem prepare_scene_is_composition (engine : String → Except String Dataset)
    (path var_name : String) (lat_bounds lon_bounds : Int × Int)
    (lat_name lon_name : String) :
    prepare_scene engine path var_name lat_bounds lon_bounds lat_name lon_name =
      prepare_scene_spec engine path var_name lat_bounds lon_bounds lat_name lon_name ∧
    (∀ e, open_goes_scene engine path = .error e →
      prepare_scene engine path var_name lat_bounds lon_bounds lat_name lon_name =
        .error e) ∧
    (∀ ds e, open_goes_scene engine path = .ok ds →
      select_variable ds var_name = .error e →
      prepare_scene engine path var_name lat_bounds lon_bounds lat_name lon_name =
        .error e) := by
  refine ⟨rfl, ?_, ?_⟩
  · intro e he
    unfold prepare_scene
    rw [he]
    rfl
  · intro ds e hds he
    unfold prepare_scene
    rw [hds]
    show (select_variable ds var_name).bind _ = _
    rw [he]
    rfl

/-- Witness for C4: a failing engine aborts `prepare_scene` with its error,
and a dataset lacking the variable aborts it with the lookup error. -/
theorem prepare_scene_is_composition_witness :
    prepare_scene (fun _ => .error "missing file") "f.nc" "CMI" (0, 1) (0, 1) "y" "x" =
      .error "missing file" ∧
    prepare_scene (fun _ => .ok ⟨[]⟩) "f.nc" "CMI" (0, 1) (0, 1) "y" "x" =
      .error ("KeyError: La variable \x27CMI\x27 no existe en el Dataset.") :=
  ⟨(prepare_scene_is_composition (fun _ => .error "missing file") "f.nc" "CMI"
      (0, 1) (0, 1) "y" "x").2.1 "missing file" rfl,
   (prepare_scene_is_composition (fun _ => .ok ⟨[]⟩) "f.nc" "CMI"
      (0, 1) (0, 1) "y" "x").2.2 ⟨[]⟩ _ rfl (by decide)⟩
